import Mathlib

/-!
Verification of the chaturLog log-chunking pipeline
(`backend/services/log_chunker.py` and the orchestration in
`backend/server.py`) against its natural-language specification.

Shallow embedding conventions:
* a log file is its list of lines, each line carrying its trailing
  newline exactly as produced by Python's `for line in f`;
* Python dicts with a fixed key set become structures; a key accessed
  with `.get(k, default)` becomes an `Option` field (`none` = key
  absent), and a key accessed with `d[k]` that may be absent makes the
  accessing operation return `Except` (Python `KeyError`);
* the SQLite table `chunk_summaries` is the list of its rows in rowid
  (insertion) order; `ORDER BY` is a stable insertion sort, `TEXT`
  comparison is the byte/lexicographic order on strings;
* calls to the external AI provider are abstracted as an oracle value
  (`ProviderOutcome`) describing whether the call+JSON-parse chain
  succeeded and with which parsed fields;
* timestamps are modelled as integers (seconds); the regex/strptime
  extraction helpers are abstracted as function parameters, so every
  theorem about the chunkers holds for the source's concrete extractor
  in particular;
* the `hash` field (md5 fingerprint) and the timeline/key-pattern set
  aggregation are not needed by any claim below and are omitted from
  the embedded records.
-/

namespace ChaturLog

/-- A chunk as yielded by `LogChunker.stream_chunks` /
`smart_chunk_by_time`: ordinal, the lines it holds (its `content` is
their concatenation), inclusive line bookkeeping, character size and
the detected time range. -/
structure Chunk where
  chunk_id : Nat
  clines : List String
  start_line : Nat
  end_line : Nat
  size : Nat
  timestamp_range : Option Int × Option Int
  deriving DecidableEq

/-- `''.join(buffer)` for a chunk's lines. -/
def Chunk.content (c : Chunk) : String := String.join c.clines

/-- Total character count of a list of lines. -/
def sumLen (l : List String) : Nat := (l.map String.length).sum

/-- Loop body of `LogChunker.stream_chunks` (log_chunker.py:45-102):
accumulate lines into `buffer`, yield a chunk as soon as
`buffer_size >= chunk_size`, and flush the remainder at end of file.
`tr` abstracts `_extract_time_range` (applied to the joined content). -/
def stream_chunks_aux (tr : String → Option Int × Option Int) (chunk_size : Nat) :
    List String → List String → Nat → Nat → Nat → Nat → List Chunk
  | [], buffer, buffer_size, line_number, start_line, chunk_id =>
      if buffer = [] then []
      else [⟨chunk_id, buffer, start_line, line_number, buffer_size,
             tr (String.join buffer)⟩]
  | line :: rest, buffer, buffer_size, line_number, start_line, chunk_id =>
      let line_number' := line_number + 1
      let buffer' := buffer ++ [line]
      let buffer_size' := buffer_size + line.length
      if chunk_size ≤ buffer_size' then
        ⟨chunk_id, buffer', start_line, line_number', buffer_size',
          tr (String.join buffer')⟩ ::
          stream_chunks_aux tr chunk_size rest [] 0 line_number' line_number' (chunk_id + 1)
      else
        stream_chunks_aux tr chunk_size rest buffer' buffer_size' line_number' start_line chunk_id

/-- `LogChunker.stream_chunks`: size-based chunking of a file's lines. -/
def stream_chunks (tr : String → Option Int × Option Int) (chunk_size : Nat)
    (lines : List String) : List Chunk :=
  stream_chunks_aux tr chunk_size lines [] 0 0 0 0

/-- Loop body of `LogChunker.smart_chunk_by_time` (log_chunker.py:104-159):
a new window starts when a line's timestamp is more than
`time_window_seconds` past the window's start time; the boundary chunk is
yielded before the current line is appended to the new window; the final
window is flushed at end of file. `extract` abstracts
`_extract_timestamp`. -/
def smart_chunk_by_time_aux (window : Int) (extract : String → Option Int) :
    List String → List String → Option Int → Nat → Nat → Nat → List Chunk
  | [], current_chunk, start_time, line_number, start_line, chunk_id =>
      if current_chunk = [] then []
      else [⟨chunk_id, current_chunk, start_line, line_number,
             sumLen current_chunk, (start_time, none)⟩]
  | line :: rest, current_chunk, start_time, line_number, start_line, chunk_id =>
      let line_number' := line_number + 1
      match extract line with
      | none =>
          smart_chunk_by_time_aux window extract rest (current_chunk ++ [line])
            start_time line_number' start_line chunk_id
      | some t =>
          let s := match start_time with | none => t | some s => s
          if t - s > window ∧ current_chunk ≠ [] then
            ⟨chunk_id, current_chunk, start_line, line_number' - 1,
              sumLen current_chunk, (some s, some t)⟩ ::
              smart_chunk_by_time_aux window extract rest [line] (some t)
                line_number' line_number' (chunk_id + 1)
          else
            smart_chunk_by_time_aux window extract rest (current_chunk ++ [line])
              (some s) line_number' start_line chunk_id

/-- `LogChunker.smart_chunk_by_time`: time-window chunking of a file's lines. -/
def smart_chunk_by_time (window : Int) (extract : String → Option Int)
    (lines : List String) : List Chunk :=
  smart_chunk_by_time_aux window extract lines [] none 0 0 0

/-- Opaque JSON payload of one discovered error / API call / performance
issue; no claim inspects the items' internals, only how the lists holding
them are stored and concatenated. -/
abbrev Item := String

/-- The structured fields of a successfully parsed provider response
(`json.loads(self._extract_json(response))` in
`ChunkSummarizer.summarize_chunk`): every key is optional, since the
provider's JSON is not guaranteed to carry any of them. -/
structure ParsedData where
  summary : Option String
  errors_found : Option (List Item)
  api_calls : Option (List Item)
  performance_issues : Option (List Item)
  key_patterns : Option (List String)
  severity : Option String
  deriving DecidableEq

/-- Outcome of the provider call plus JSON extraction/parsing chain
inside `summarize_chunk`'s `try` block: either a parsed dict, or any
exception (network, quota, unparseable response). -/
inductive ProviderOutcome where
  | parsed (d : ParsedData)
  | failure (e : String)
  deriving DecidableEq

/-- The dict returned by `ChunkSummarizer.summarize_chunk`
(log_chunker.py:292-362). `none` in an `Option` field means the key is
absent from the dict. `timestamp_range` is `Option`-wrapped because the
failure-path dict (lines 353-362) does NOT contain that key. -/
structure SummaryDict where
  chunk_id : Nat
  summary : Option String
  errors_found : Option (List Item)
  api_calls : Option (List Item)
  performance_issues : Option (List Item)
  key_patterns : Option (List String)
  severity : Option String
  line_range : Nat × Nat
  timestamp_range : Option (Option Int × Option Int)
  deriving DecidableEq

/-- `ChunkSummarizer.summarize_chunk`: on success the parsed dict gets
`chunk_id`, `line_range` and `timestamp_range` stamped in; on any
exception the fixed fallback dict is returned (severity `unknown`,
explanatory summary, empty lists — and no `timestamp_range` key). The
function is total: no exception escapes this boundary. -/
def summarize_chunk (chunk : Chunk) (outcome : ProviderOutcome) : SummaryDict :=
  match outcome with
  | .parsed d =>
      { chunk_id := chunk.chunk_id
        summary := d.summary
        errors_found := d.errors_found
        api_calls := d.api_calls
        performance_issues := d.performance_issues
        key_patterns := d.key_patterns
        severity := d.severity
        line_range := (chunk.start_line, chunk.end_line)
        timestamp_range := some chunk.timestamp_range }
  | .failure e =>
      { chunk_id := chunk.chunk_id
        summary := some ("Error summarizing chunk: " ++ e)
        errors_found := some []
        api_calls := some []
        performance_issues := some []
        key_patterns := some []
        severity := some "unknown"
        line_range := (chunk.start_line, chunk.end_line)
        timestamp_range := none }

/-- One row of the `chunk_summaries` table (the `*_json` columns hold
the `json.dumps` of the lists; `json.loads` at read time restores them,
so the columns are modelled by the lists themselves). -/
structure SummaryRow where
  analysis_id : Nat
  chunk_id : Nat
  summary : String
  errors_json : List Item
  api_calls_json : List Item
  performance_issues_json : List Item
  key_patterns_json : List String
  severity : String
  start_line : Nat
  end_line : Nat
  timestamp_start : Option Int
  timestamp_end : Option Int
  deriving DecidableEq

/-- The row built by `ChunkIndex.store_chunk_summary`'s INSERT once the
dict's `timestamp_range` value `tsr` has been read successfully:
`.get` defaults for the optional keys, `'info'` for a missing
severity. (Python's `str(ts) if ts else None` keeps a present timestamp
and keeps `None`, modelled as the identity on `Option Int`.) -/
def rowOf (analysis_id : Nat) (s : SummaryDict) (tsr : Option Int × Option Int) :
    SummaryRow :=
  { analysis_id := analysis_id
    chunk_id := s.chunk_id
    summary := s.summary.getD ""
    errors_json := s.errors_found.getD []
    api_calls_json := s.api_calls.getD []
    performance_issues_json := s.performance_issues.getD []
    key_patterns_json := s.key_patterns.getD []
    severity := s.severity.getD "info"
    start_line := s.line_range.1
    end_line := s.line_range.2
    timestamp_start := tsr.1
    timestamp_end := tsr.2 }

/-- `ChunkIndex.store_chunk_summary` (log_chunker.py:472-497): a plain
INSERT appending one autoincrement row. The INSERT's parameter tuple
evaluates `summary['timestamp_range']` — a `KeyError` (modelled as
`.error`) if the dict lacks that key, in which case nothing is
inserted. -/
def store_chunk_summary (db : List SummaryRow) (analysis_id : Nat)
    (s : SummaryDict) : Except String (List SummaryRow) :=
  match s.timestamp_range with
  | none => .error "KeyError: timestamp_range"
  | some tsr => .ok (db ++ [rowOf analysis_id s tsr])

/-- Rows currently stored for one (analysis id, segment ordinal) key. -/
def keyRows (db : List SummaryRow) (analysis_id chunk_id : Nat) : List SummaryRow :=
  db.filter (fun r => r.analysis_id == analysis_id && r.chunk_id == chunk_id)

/-- Row order of `ORDER BY chunk_id ASC`. -/
def rowLeByChunk (a b : SummaryRow) : Prop := a.chunk_id ≤ b.chunk_id

instance : DecidableRel rowLeByChunk := fun _ _ => Nat.decLe _ _

instance : IsTotal SummaryRow rowLeByChunk := ⟨fun _ _ => Nat.le_total _ _⟩

instance : IsTrans SummaryRow rowLeByChunk :=
  ⟨fun _ _ _ h h' => Nat.le_trans h h'⟩

/-- `ChunkIndex.get_all_summaries`: rows of the analysis, ordered by
`chunk_id` ascending (stable on ties, matching rowid order). -/
def get_all_summaries (db : List SummaryRow) (analysis_id : Nat) : List SummaryRow :=
  List.insertionSort rowLeByChunk (db.filter (fun r => r.analysis_id == analysis_id))

/-- Byte/code-point lexicographic strict order on strings' character
lists — the order SQLite's default binary TEXT collation (memcmp over
UTF-8) induces on the ASCII severity labels stored here. Defined
structurally so that it evaluates by kernel reduction. -/
def strLtB : List Char → List Char → Bool
  | [], [] => false
  | [], _ :: _ => true
  | _ :: _, [] => false
  | a :: as, b :: bs => if a < b then true else if b < a then false else strLtB as bs

theorem strLtB_cons_iff (a b : Char) (as bs : List Char) :
    strLtB (a :: as) (b :: bs) = true ↔ a < b ∨ (a = b ∧ strLtB as bs = true) := by
  by_cases hab : a < b
  · simp [strLtB, hab]
  · by_cases hba : b < a
    · simp only [strLtB, if_neg hab, if_pos hba]
      constructor
      · intro h
        exact absurd h (by simp)
      · rintro (h | ⟨h, _⟩)
        · exact absurd h hab
        · exact absurd (h ▸ hba) (lt_irrefl a)
    · have heq : a = b := le_antisymm (not_lt.mp hba) (not_lt.mp hab)
      simp [strLtB, hab, hba, heq]

theorem strLtB_trans :
    ∀ x y z : List Char, strLtB x y = true → strLtB y z = true → strLtB x z = true := by
  intro x
  induction x with
  | nil =>
      intro y z hxy hyz
      cases y with
      | nil => simp [strLtB] at hxy
      | cons b bs =>
          cases z with
          | nil => simp [strLtB] at hyz
          | cons c cs => simp [strLtB]
  | cons a as ih =>
      intro y z hxy hyz
      cases y with
      | nil => simp [strLtB] at hxy
      | cons b bs =>
          cases z with
          | nil => simp [strLtB] at hyz
          | cons c cs =>
              rcases (strLtB_cons_iff a b as bs).mp hxy with hab | ⟨hab, htab⟩ <;>
                rcases (strLtB_cons_iff b c bs cs).mp hyz with hbc | ⟨hbc, htbc⟩
              · exact (strLtB_cons_iff a c as cs).mpr (Or.inl (lt_trans hab hbc))
              · exact (strLtB_cons_iff a c as cs).mpr (Or.inl (hbc ▸ hab))
              · exact (strLtB_cons_iff a c as cs).mpr (Or.inl (hab ▸ hbc))
              · exact (strLtB_cons_iff a c as cs).mpr
                  (Or.inr ⟨hab.trans hbc, ih bs cs htab htbc⟩)

theorem strLtB_trichot :
    ∀ x y : List Char, strLtB x y = true ∨ x = y ∨ strLtB y x = true := by
  intro x
  induction x with
  | nil =>
      intro y
      cases y with
      | nil => simp [strLtB]
      | cons b bs => simp [strLtB]
  | cons a as ih =>
      intro y
      cases y with
      | nil => simp [strLtB]
      | cons b bs =>
          rcases lt_trichotomy a b with h | h | h
          · exact Or.inl ((strLtB_cons_iff a b as bs).mpr (Or.inl h))
          · rcases ih bs with h' | h' | h'
            · exact Or.inl ((strLtB_cons_iff a b as bs).mpr (Or.inr ⟨h, h'⟩))
            · exact Or.inr (Or.inl (by rw [h, h']))
            · exact Or.inr (Or.inr
                ((strLtB_cons_iff b a bs as).mpr (Or.inr ⟨h.symm, h'⟩)))
          · exact Or.inr (Or.inr ((strLtB_cons_iff b a bs as).mpr (Or.inl h)))

/-- Row order of `ORDER BY severity DESC, chunk_id ASC`: severity
compared as raw TEXT (byte-lexicographically, via `strLtB` on the
strings' character data) descending, then ordinal ascending. -/
def rowLeBySeverity (a b : SummaryRow) : Prop :=
  strLtB b.severity.data a.severity.data = true
  ∨ (a.severity = b.severity ∧ a.chunk_id ≤ b.chunk_id)

instance : DecidableRel rowLeBySeverity := fun _ _ => by
  unfold rowLeBySeverity; infer_instance

instance : IsTotal SummaryRow rowLeBySeverity := by
  constructor
  intro a b
  rcases strLtB_trichot a.severity.data b.severity.data with h | h | h
  · exact Or.inr (Or.inl h)
  · have hs : a.severity = b.severity := String.ext h
    rcases Nat.le_total a.chunk_id b.chunk_id with h' | h'
    · exact Or.inl (Or.inr ⟨hs, h'⟩)
    · exact Or.inr (Or.inr ⟨hs.symm, h'⟩)
  · exact Or.inl (Or.inl h)

instance : IsTrans SummaryRow rowLeBySeverity := by
  constructor
  intro a b c hab hbc
  rcases hab with hab | ⟨hab, hab'⟩
  · rcases hbc with hbc | ⟨hbc, _⟩
    · exact Or.inl (strLtB_trans _ _ _ hbc hab)
    · exact Or.inl (by rw [← congrArg String.data hbc]; exact hab)
  · rcases hbc with hbc | ⟨hbc, hbc'⟩
    · exact Or.inl (by rw [congrArg String.data hab]; exact hbc)
    · exact Or.inr ⟨hab.trans hbc, Nat.le_trans hab' hbc'⟩

/-- The `severity_levels` dict of `get_summaries_by_severity`, read with
`.get(severity, 0)`: any string outside the five known ones — including
`'unknown'` — maps to level 0. -/
def severityLevel (s : String) : Nat :=
  if s == "critical" then 4
  else if s == "high" then 3
  else if s == "medium" then 2
  else if s == "low" then 1
  else if s == "info" then 0
  else 0

/-- `severity_levels.get(min_severity, 2)`: an unrecognized threshold —
including `'unknown'` — defaults to level 2 (`medium`). -/
def minLevelOf (min_severity : String) : Nat :=
  if min_severity == "critical" then 4
  else if min_severity == "high" then 3
  else if min_severity == "medium" then 2
  else if min_severity == "low" then 1
  else if min_severity == "info" then 0
  else 2

/-- `ChunkIndex.get_summaries_by_severity` (log_chunker.py:499-516):
SQL orders the analysis's rows by severity TEXT descending then ordinal
ascending; Python then keeps the rows whose mapped level reaches the
threshold's level. -/
def get_summaries_by_severity (db : List SummaryRow) (analysis_id : Nat)
    (min_severity : String) : List SummaryRow :=
  let rows := List.insertionSort rowLeBySeverity
    (db.filter (fun r => r.analysis_id == analysis_id))
  rows.filter (fun r => minLevelOf min_severity ≤ severityLevel r.severity)

/-- Python `dict.get(k, 0)` on a `str -> int` dict kept as an ordered
association list (insertion order preserved, first match wins). -/
def dictGet (d : List (String × Nat)) (k : String) : Nat :=
  match d with
  | [] => 0
  | (k', v) :: rest => if k' = k then v else dictGet rest k

/-- Python `d[k] = v`: replace the entry if the key exists, else append
a new entry at the end (dict insertion-order semantics). -/
def dictSet (d : List (String × Nat)) (k : String) (v : Nat) : List (String × Nat) :=
  match d with
  | [] => [(k, v)]
  | (k', v') :: rest => if k' = k then (k, v) :: rest else (k', v') :: dictSet rest k v

/-- Sum of a count dict's values. -/
def sumVals (d : List (String × Nat)) : Nat := (d.map Prod.snd).sum

/-- `ChunkIndex._get_severity_distribution` (log_chunker.py:554-560):
start from the five fixed buckets (note: no `unknown` entry) and do
`distribution[severity] = distribution.get(severity, 0) + 1` per row. -/
def get_severity_distribution (summaries : List SummaryRow) : List (String × Nat) :=
  summaries.foldl
    (fun d r => dictSet d r.severity (dictGet d r.severity + 1))
    [("critical", 0), ("high", 0), ("medium", 0), ("low", 0), ("info", 0)]

/-- The aggregated result built by `ChunkIndex.aggregate_summaries`.
(`key_patterns` — a Python set with unspecified iteration order — and
`timeline` are not touched by any claim and are omitted.) -/
structure Aggregated where
  total_chunks : Nat
  error_patterns : List Item
  api_endpoints : List Item
  performance_issues : List Item
  severity_distribution : List (String × Nat)
  deriving DecidableEq

/-- `ChunkIndex.aggregate_summaries` (log_chunker.py:529-552): read all
rows for the analysis ordered by ordinal and fold them. -/
def aggregate_summaries (db : List SummaryRow) (analysis_id : Nat) : Aggregated :=
  let summaries := get_all_summaries db analysis_id
  { total_chunks := summaries.length
    error_patterns := (summaries.map SummaryRow.errors_json).flatten
    api_endpoints := (summaries.map SummaryRow.api_calls_json).flatten
    performance_issues := (summaries.map SummaryRow.performance_issues_json).flatten
    severity_distribution := get_severity_distribution summaries }

/-- Per-chunk body of the loop in `process_with_chunking`
(server.py:817-837): summarize, then store; any exception in the body
(in particular the store's `KeyError`) is caught by the inner
`except` and the loop continues with the next chunk, leaving the
database unchanged for that chunk. -/
def process_chunk (analysis_id : Nat) (summarize : Chunk → SummaryDict)
    (db : List SummaryRow) (c : Chunk) : List SummaryRow :=
  match store_chunk_summary db analysis_id (summarize c) with
  | .ok db' => db'
  | .error _ => db

/-- Core of `process_with_chunking` (server.py:784-865): drive every
chunk through summarize-and-store, then aggregate from the database.
(The in-loop `total_errors`/`total_api_calls`/... accumulators are dead
for the returned analysis — the result embeds `aggregated` — and are
not modelled.) Returns the final database and the aggregated result;
the modelled pipeline is total, matching the per-chunk isolation. -/
def process_with_chunking (analysis_id : Nat) (summarize : Chunk → SummaryDict)
    (db : List SummaryRow) (chunks : List Chunk) :
    List SummaryRow × Aggregated :=
  let db' := chunks.foldl (process_chunk analysis_id summarize) db
  (db', aggregate_summaries db' analysis_id)

/-- Routing threshold of `analyze_logs` (server.py:920):
`CHUNK_THRESHOLD = 100000`. -/
def CHUNK_THRESHOLD : Nat := 100000

/-- Outcome of the single-pass branch of `analyze_logs`
(server.py:940-1037): the analyzer returned a dict whose `success` flag
is read, or some step of the branch (file read, git detection, analyzer
call) raised an ordinary exception. -/
inductive SinglePassOutcome where
  | returned (success : Bool)
  | exn (e : String)
  deriving DecidableEq

/-- Environment of one `analyze_logs` invocation: the outcome of each
externally-determined step. `api_key` is the result of
`get_user_api_key` (server.py:536-568), which only ever raises
`HTTPException` (`.error`); `chunking` is the outcome of the body of
`process_with_chunking`'s `try` block (`.error` = any exception caught
at server.py:867). -/
structure AnalyzeEnv where
  analysis_found : Bool
  file_exists : Bool
  file_size : Nat
  api_key : Except String String
  chunking : Except String Unit
  single_pass : SinglePassOutcome

/-- What an `analyze_logs` invocation surfaces to its caller: a result
dict, or an `HTTPException`. -/
inductive AnalyzeOutcome where
  | ok (msg : String)
  | httpError (msg : String)
  deriving DecidableEq

/-- Observable trace of one `analyze_logs` invocation: the analysis's
final `status` column, the surfaced outcome, and (ghost observable)
which processing route was entered, if any. -/
structure AnalyzeRun where
  status : String
  outcome : AnalyzeOutcome
  route : Option String
  deriving DecidableEq

/-- `analyze_logs` (server.py:874-1047), as a state transformer on the
analysis's `status` column. Control flow of the source: the two
not-found checks raise `HTTPException` before any status change; the
status is set to `analyzing` (and committed) before `get_user_api_key`
is called; an `HTTPException` escaping the `try` block is re-raised
with NO status change (server.py:1039-1041), while any other exception
sets the status to `failed` (server.py:1042-1047);
`process_with_chunking` converts every internal exception to `failed`
plus an `HTTPException` (server.py:867-871); the single-pass branch
sets `completed` on `success`, else `failed` plus an `HTTPException`. -/
def analyze_logs (env : AnalyzeEnv) (status0 : String) : AnalyzeRun :=
  if env.analysis_found = false then
    { status := status0, outcome := .httpError "Analysis not found", route := none }
  else if env.file_exists = false then
    { status := status0, outcome := .httpError "Log file not found", route := none }
  else
    match env.api_key with
    | .error msg =>
        -- HTTPException raised after the status was set to 'analyzing':
        -- the outer `except HTTPException` re-raises without resetting it.
        { status := "analyzing", outcome := .httpError msg, route := none }
    | .ok _ =>
        if CHUNK_THRESHOLD ≤ env.file_size then
          match env.chunking with
          | .ok _ =>
              { status := "completed",
                outcome := .ok "Analysis completed using chunking pipeline",
                route := some "chunking" }
          | .error e =>
              { status := "failed",
                outcome := .httpError ("Chunking pipeline error: " ++ e),
                route := some "chunking" }
        else
          match env.single_pass with
          | .returned true =>
              { status := "completed",
                outcome := .ok "Analysis completed successfully",
                route := some "single-pass" }
          | .returned false =>
              { status := "failed", outcome := .httpError "Analysis failed",
                route := some "single-pass" }
          | .exn e =>
              { status := "failed", outcome := .httpError e,
                route := some "single-pass" }

/-! ## Lemmas about the chunk producers -/

/-- The lines of a chunk list, concatenated in emission order. -/
def clinesFlat (l : List Chunk) : List String := (l.map Chunk.clines).flatten

theorem clinesFlat_nil : clinesFlat [] = [] := rfl

theorem clinesFlat_cons (c : Chunk) (l : List Chunk) :
    clinesFlat (c :: l) = c.clines ++ clinesFlat l := by
  simp [clinesFlat]

theorem stream_chunks_aux_clines (tr : String → Option Int × Option Int)
    (cs : Nat) :
    ∀ (rest buffer : List String) (bs ln sl cid : Nat),
      clinesFlat (stream_chunks_aux tr cs rest buffer bs ln sl cid) = buffer ++ rest := by
  intro rest
  induction rest with
  | nil =>
      intro buffer bs ln sl cid
      by_cases h : buffer = [] <;>
        simp [stream_chunks_aux, h, clinesFlat_nil, clinesFlat_cons]
  | cons line rest ih =>
      intro buffer bs ln sl cid
      by_cases h : cs ≤ bs + line.length <;>
        simp [stream_chunks_aux, h, clinesFlat_cons, ih]

theorem stream_chunks_aux_ids (tr : String → Option Int × Option Int)
    (cs : Nat) :
    ∀ (rest buffer : List String) (bs ln sl cid : Nat),
      (stream_chunks_aux tr cs rest buffer bs ln sl cid).map Chunk.chunk_id
        = List.range' cid (stream_chunks_aux tr cs rest buffer bs ln sl cid).length := by
  intro rest
  induction rest with
  | nil =>
      intro buffer bs ln sl cid
      by_cases h : buffer = [] <;> simp [stream_chunks_aux, h]
  | cons line rest ih =>
      intro buffer bs ln sl cid
      by_cases h : cs ≤ bs + line.length <;>
        simp [stream_chunks_aux, h, ih, List.range'_succ]

theorem smart_chunk_by_time_aux_clines (window : Int) (extract : String → Option Int) :
    ∀ (rest cur : List String) (st : Option Int) (ln sl cid : Nat),
      clinesFlat (smart_chunk_by_time_aux window extract rest cur st ln sl cid)
        = cur ++ rest := by
  intro rest
  induction rest with
  | nil =>
      intro cur st ln sl cid
      by_cases h : cur = [] <;>
        simp [smart_chunk_by_time_aux, h, clinesFlat_nil, clinesFlat_cons]
  | cons line rest ih =>
      intro cur st ln sl cid
      simp only [smart_chunk_by_time_aux]
      cases hx : extract line with
      | none => simp [ih]
      | some t =>
          by_cases h : t - (match st with | none => t | some s => s) > window ∧ cur ≠ [] <;>
            simp [h, clinesFlat_cons, ih]

theorem smart_chunk_by_time_aux_ids (window : Int) (extract : String → Option Int) :
    ∀ (rest cur : List String) (st : Option Int) (ln sl cid : Nat),
      (smart_chunk_by_time_aux window extract rest cur st ln sl cid).map Chunk.chunk_id
        = List.range' cid (smart_chunk_by_time_aux window extract rest cur st ln sl cid).length := by
  intro rest
  induction rest with
  | nil =>
      intro cur st ln sl cid
      by_cases h : cur = [] <;> simp [smart_chunk_by_time_aux, h]
  | cons line rest ih =>
      intro cur st ln sl cid
      simp only [smart_chunk_by_time_aux]
      cases hx : extract line with
      | none => simp [ih]
      | some t =>
          by_cases h : t - (match st with | none => t | some s => s) > window ∧ cur ≠ [] <;>
            simp [h, ih, List.range'_succ]

theorem sumLen_append (a b : List String) : sumLen (a ++ b) = sumLen a + sumLen b := by
  simp [sumLen]

/-- Every chunk that has a successor in the emitted sequence was yielded
by the in-loop branch, whose guard is `buffer_size' >= chunk_size`. -/
theorem stream_chunks_aux_nonfinal_size (tr : String → Option Int × Option Int)
    (cs : Nat) :
    ∀ (rest buffer : List String) (bs ln sl cid : Nat)
      (pre : List Chunk) (c c' : Chunk) (suf : List Chunk),
      stream_chunks_aux tr cs rest buffer bs ln sl cid = pre ++ c :: c' :: suf →
      cs ≤ c.size := by
  intro rest
  induction rest with
  | nil =>
      intro buffer bs ln sl cid pre c c' suf h
      by_cases hb : buffer = [] <;> simp [stream_chunks_aux, hb] at h
      have hlen := congrArg List.length h
      simp at hlen
      omega
  | cons line rest ih =>
      intro buffer bs ln sl cid pre c c' suf h
      by_cases hle : cs ≤ bs + line.length
      · simp [stream_chunks_aux, hle] at h
        cases pre with
        | nil =>
            simp at h
            rcases h with ⟨hc, _⟩
            rw [← hc]
            exact hle
        | cons p pre' =>
            simp at h
            exact ih [] 0 (ln + 1) (ln + 1) (cid + 1) pre' c c' suf h.2
      · simp [stream_chunks_aux, hle] at h
        exact ih (buffer ++ [line]) (bs + line.length) (ln + 1) sl cid pre c c' suf h

/-- Size bookkeeping of `stream_chunks_aux`: under the loop invariant
(`buffer_size` is the buffer's character count, and the buffer is
strictly below the threshold — or empty), every emitted chunk's `size`
equals its lines' character count, and its lines split as
`pre ++ [last]` with `pre` strictly below the threshold (or empty):
the threshold can only be overshot by the chunk's final line. -/
theorem stream_chunks_aux_size_eq (tr : String → Option Int × Option Int)
    (cs : Nat) :
    ∀ (rest buffer : List String) (bs ln sl cid : Nat),
      bs = sumLen buffer → (buffer = [] ∨ bs < cs) →
      ∀ c ∈ stream_chunks_aux tr cs rest buffer bs ln sl cid,
        c.size = sumLen c.clines
        ∧ ∃ p l, c.clines = p ++ [l] ∧ (p = [] ∨ sumLen p < cs) := by
  intro rest
  induction rest with
  | nil =>
      intro buffer bs ln sl cid hbs hinv c hc
      by_cases hb : buffer = [] <;> simp [stream_chunks_aux, hb] at hc
      rcases hinv with h' | h'
      · exact absurd h' hb
      · subst hc
        refine ⟨hbs, buffer.dropLast, buffer.getLast hb,
          (List.dropLast_append_getLast hb).symm, Or.inr ?_⟩
        have hdec := List.dropLast_append_getLast hb
        have : sumLen buffer.dropLast ≤ sumLen buffer := by
          conv_rhs => rw [← hdec]
          rw [sumLen_append]
          omega
        omega
  | cons line rest ih =>
      intro buffer bs ln sl cid hbs hinv c hc
      by_cases hle : cs ≤ bs + line.length
      · simp [stream_chunks_aux, hle] at hc
        rcases hc with hc | hc
        · subst hc
          refine ⟨by simp [sumLen_append, sumLen, hbs], buffer, line, rfl, ?_⟩
          rcases hinv with h' | h'
          · exact Or.inl h'
          · exact Or.inr (hbs ▸ h')
        · exact ih [] 0 (ln + 1) (ln + 1) (cid + 1) rfl (Or.inl rfl) c hc
      · simp [stream_chunks_aux, hle] at hc
        refine ih (buffer ++ [line]) (bs + line.length) (ln + 1) sl cid ?_ ?_ c hc
        · simp [sumLen_append, sumLen, hbs]
        · right
          omega

/-! ## Claim theorems: chunk producers -/

/-- Claim C4: for every input file and every target segment size
(respectively, every time-window duration and timestamp extractor),
both the size-based and the time-window chunking strategies emit a
finite ordered sequence of segments whose lines concatenate, in order,
back to exactly the input file's lines (so every line lands in exactly
one segment and the final partial segment is flushed), and whose
ordinals are exactly `0..N-1` with no gaps. -/
theorem chunkers_cover_file_with_contiguous_ordinals
    (tr : String → Option Int × Option Int) (extract : String → Option Int)
    (chunk_size : Nat) (window : Int) (lines : List String) :
    clinesFlat (stream_chunks tr chunk_size lines) = lines
    ∧ (stream_chunks tr chunk_size lines).map Chunk.chunk_id
        = List.range (stream_chunks tr chunk_size lines).length
    ∧ clinesFlat (smart_chunk_by_time window extract lines) = lines
    ∧ (smart_chunk_by_time window extract lines).map Chunk.chunk_id
        = List.range (smart_chunk_by_time window extract lines).length := by
  refine ⟨?_, ?_, ?_, ?_⟩
  · simpa using stream_chunks_aux_clines tr chunk_size lines [] 0 0 0 0
  · rw [List.range_eq_range']
    exact stream_chunks_aux_ids tr chunk_size lines [] 0 0 0 0
  · simpa using smart_chunk_by_time_aux_clines window extract lines [] none 0 0 0
  · rw [List.range_eq_range']
    exact smart_chunk_by_time_aux_ids window extract lines [] none 0 0 0

/-- A time-range extractor finding nothing (the concrete value is
irrelevant to every property below). -/
def tr0 : String → Option Int × Option Int := fun _ => (none, none)

/-- A 3-line file whose lines are 7 characters each. -/
def lines0 : List String := ["aaaaaa\n", "bbbbbb\n", "cccccc\n"]

/-- First chunk of `stream_chunks tr0 10 lines0`: two 7-character lines,
size 14 — the target size 10 is exceeded although no single line
exceeds it. -/
def chunk0 : Chunk := ⟨0, ["aaaaaa\n", "bbbbbb\n"], 0, 2, 14, (none, none)⟩

/-- Second (final) chunk of `stream_chunks tr0 10 lines0`. -/
def chunk1 : Chunk := ⟨1, ["cccccc\n"], 2, 3, 7, (none, none)⟩

/-- Counterexample to claim C5 as stated: chunking a file of three
7-character lines at target size 10 yields a non-final segment of size
14 ≠ 10, although every line's length is at most the target — so a
non-final segment's size is not the target size, and a segment exceeds
the target without any single line exceeding it. -/
theorem stream_chunks_nonfinal_size_not_target :
    stream_chunks tr0 10 lines0 = [chunk0, chunk1]
    ∧ chunk0.size ≠ 10
    ∧ lines0.all (fun l => l.length ≤ 10) = true := by
  refine ⟨by decide, by decide, by decide⟩

/-- Claim C5 (amended): every segment emitted by the size-based producer
except the final one has size AT LEAST the target size (not exactly
it); every segment's size is the character count of its lines, and its
lines split as `p ++ [last]` with `p` below the target — i.e. the
target can be overshot only by the segment's final line (lines are
never split), by any amount up to that line's length. -/
theorem stream_chunks_size_bounds (tr : String → Option Int × Option Int)
    (chunk_size : Nat) (lines : List String) :
    (∀ (pre : List Chunk) (c c' : Chunk) (suf : List Chunk),
        stream_chunks tr chunk_size lines = pre ++ c :: c' :: suf →
        chunk_size ≤ c.size)
    ∧ ∀ c ∈ stream_chunks tr chunk_size lines,
        c.size = sumLen c.clines
        ∧ ∃ p l, c.clines = p ++ [l] ∧ (p = [] ∨ sumLen p < chunk_size) := by
  constructor
  · intro pre c c' suf h
    exact stream_chunks_aux_nonfinal_size tr chunk_size lines [] 0 0 0 0 pre c c' suf h
  · exact stream_chunks_aux_size_eq tr chunk_size lines [] 0 0 0 0 rfl (Or.inl rfl)

/-- Witness for `stream_chunks_size_bounds` at a concrete input: the
non-final chunk of `stream_chunks tr0 10 lines0` has size at least 10,
and the first chunk decomposes with its prefix below the target. -/
theorem stream_chunks_size_bounds_witness :
    10 ≤ chunk0.size
    ∧ (chunk0.size = sumLen chunk0.clines
        ∧ ∃ p l, chunk0.clines = p ++ [l] ∧ (p = [] ∨ sumLen p < 10)) := by
  have h := stream_chunks_size_bounds tr0 10 lines0
  refine ⟨h.1 [] chunk0 chunk1 [] (by decide), h.2 chunk0 (by decide)⟩

/-! ## Lemmas about the count dict and the severity distribution -/

theorem dictGet_dictSet_self (d : List (String × Nat)) (k : String) (v : Nat) :
    dictGet (dictSet d k v) k = v := by
  induction d with
  | nil => simp [dictGet, dictSet]
  | cons p rest ih =>
      by_cases h : p.1 = k <;> simp [dictGet, dictSet, h, ih]

theorem dictGet_dictSet_ne (d : List (String × Nat)) (k k' : String) (v : Nat)
    (hne : k' ≠ k) : dictGet (dictSet d k v) k' = dictGet d k' := by
  induction d with
  | nil => simp [dictGet, dictSet, Ne.symm hne]
  | cons p rest ih =>
      by_cases h : p.1 = k
      · simp [dictGet, dictSet, h, Ne.symm hne, hne]
      · by_cases h' : p.1 = k' <;> simp [dictGet, dictSet, h, h', hne, ih]

theorem sumVals_dictSet_incr (d : List (String × Nat)) (k : String) :
    sumVals (dictSet d k (dictGet d k + 1)) = sumVals d + 1 := by
  induction d with
  | nil => simp [sumVals, dictGet, dictSet]
  | cons p rest ih =>
      by_cases h : p.1 = k <;> simp [sumVals, dictGet, dictSet, h] <;>
        simp [sumVals, dictGet] at ih <;> omega

theorem keys_dictSet (d : List (String × Nat)) (k : String) (v : Nat) :
    (dictSet d k v).map Prod.fst = d.map Prod.fst
    ∨ (dictSet d k v).map Prod.fst = d.map Prod.fst ++ [k] := by
  induction d with
  | nil => simp [dictSet]
  | cons p rest ih =>
      by_cases h : p.1 = k
      · simp [dictSet, h]
      · rcases ih with ih | ih <;> simp [dictSet, h, ih]

/-- One fold step of `_get_severity_distribution`. -/
def distStep (d : List (String × Nat)) (r : SummaryRow) : List (String × Nat) :=
  dictSet d r.severity (dictGet d r.severity + 1)

theorem get_severity_distribution_eq_foldl (rows : List SummaryRow) :
    get_severity_distribution rows
      = rows.foldl distStep
          [("critical", 0), ("high", 0), ("medium", 0), ("low", 0), ("info", 0)] := rfl

theorem sumVals_foldl_distStep (rows : List SummaryRow) :
    ∀ d, sumVals (rows.foldl distStep d) = sumVals d + rows.length := by
  induction rows with
  | nil => intro d; simp
  | cons r rows ih =>
      intro d
      have : sumVals (distStep d r) = sumVals d + 1 := sumVals_dictSet_incr d r.severity
      simp [List.foldl_cons, ih (distStep d r), this]
      omega

theorem dictGet_foldl_distStep (k : String) (rows : List SummaryRow) :
    ∀ d, dictGet (rows.foldl distStep d) k
      = dictGet d k + rows.countP (fun r => r.severity == k) := by
  induction rows with
  | nil => intro d; simp
  | cons r rows ih =>
      intro d
      by_cases h : r.severity = k
      · rw [List.foldl_cons, ih (distStep d r)]
        have hstep : dictGet (distStep d r) k = dictGet d k + 1 := by
          rw [show distStep d r = dictSet d r.severity (dictGet d r.severity + 1) from rfl, h]
          exact dictGet_dictSet_self d k (dictGet d k + 1)
        rw [hstep]
        simp [List.countP_cons, h]
        omega
      · rw [List.foldl_cons, ih (distStep d r)]
        have hstep : dictGet (distStep d r) k = dictGet d k := by
          rw [show distStep d r = dictSet d r.severity (dictGet d r.severity + 1) from rfl]
          exact dictGet_dictSet_ne d r.severity k _ (fun h' => h h'.symm)
        rw [hstep]
        simp [List.countP_cons, h]

theorem mem_keys_dictSet (d : List (String × Nat)) (k' : String) (v : Nat)
    (k : String) :
    k ∈ (dictSet d k' v).map Prod.fst ↔ k ∈ d.map Prod.fst ∨ k = k' := by
  induction d with
  | nil => simp [dictSet, eq_comm]
  | cons p rest ih =>
      by_cases h : p.1 = k'
      · simp [dictSet, h, eq_comm]
        tauto
      · simp only [dictSet, if_neg h, List.map_cons, List.mem_cons, ih]
        tauto

theorem mem_keys_foldl_distStep (rows : List SummaryRow) :
    ∀ (d : List (String × Nat)) (k : String),
      k ∈ (rows.foldl distStep d).map Prod.fst
        ↔ k ∈ d.map Prod.fst ∨ ∃ r ∈ rows, r.severity = k := by
  induction rows with
  | nil => intro d k; simp
  | cons r rows ih =>
      intro d k
      rw [List.foldl_cons, ih (distStep d r) k,
        show distStep d r = dictSet d r.severity (dictGet d r.severity + 1) from rfl,
        mem_keys_dictSet]
      simp only [List.mem_cons]
      constructor
      · rintro ((h | h) | ⟨r', hr', h⟩)
        · exact Or.inl h
        · exact Or.inr ⟨r, Or.inl rfl, h.symm⟩
        · exact Or.inr ⟨r', Or.inr hr', h⟩
      · rintro (h | ⟨r', hr' | hr', h⟩)
        · exact Or.inl (Or.inl h)
        · exact Or.inl (Or.inr (hr' ▸ h.symm))
        · exact Or.inr ⟨r', hr', h⟩

theorem keys_foldl_distStep (rows : List SummaryRow) :
    ∀ d, ∃ ext, (rows.foldl distStep d).map Prod.fst = d.map Prod.fst ++ ext := by
  induction rows with
  | nil => intro d; exact ⟨[], by simp⟩
  | cons r rows ih =>
      intro d
      rcases ih (distStep d r) with ⟨ext, hext⟩
      rcases keys_dictSet d r.severity (dictGet d r.severity + 1) with h | h
      · exact ⟨ext, by
          rw [List.foldl_cons, hext,
            show (distStep d r).map Prod.fst = d.map Prod.fst from h]⟩
      · exact ⟨r.severity :: ext, by
          rw [List.foldl_cons, hext,
            show (distStep d r).map Prod.fst = d.map Prod.fst ++ [r.severity] from h]
          simp⟩

theorem get_all_summaries_perm (db : List SummaryRow) (aid : Nat) :
    (get_all_summaries db aid).Perm (db.filter (fun r => r.analysis_id == aid)) :=
  List.perm_insertionSort _ _

/-! ## Claim theorems: summary store and aggregation -/

/-- A concrete stored row with severity `info`. -/
def row0 : SummaryRow := ⟨7, 0, "ok", [], [], [], [], "info", 0, 1, none, none⟩

/-- Counterexample to claim C6 as stated: the severity distribution of
an analysis with one stored `info` summary has NO `unknown` entry at
all — `_get_severity_distribution` initializes only the five buckets
`critical/high/medium/low/info`, and adds other keys only when a row
carries them. -/
theorem severity_distribution_missing_unknown_bucket :
    (aggregate_summaries [row0] 7).total_chunks = 1
    ∧ ¬ ("unknown" ∈ (aggregate_summaries [row0] 7).severity_distribution.map Prod.fst) := by
  refine ⟨by decide, by decide⟩

/-- Claim C6 (amended): for every database and analysis id, the
aggregated severity distribution always contains the five buckets
`critical, high, medium, low, info` (zero counts included); a bucket
for ANY other severity value — `unknown` included — is present if and
only if some stored summary of that analysis carries that severity
(third conjunct: a key is in the distribution exactly when it is one of
the five buckets or some stored row of the analysis has it as its
severity); and the sum of all bucket counts equals `total_chunks`, the
number of stored summaries for the analysis. -/
theorem severity_distribution_buckets_and_total (db : List SummaryRow) (aid : Nat) :
    (∃ ext, (aggregate_summaries db aid).severity_distribution.map Prod.fst
        = ["critical", "high", "medium", "low", "info"] ++ ext)
    ∧ sumVals (aggregate_summaries db aid).severity_distribution
        = (aggregate_summaries db aid).total_chunks
    ∧ ∀ k : String,
        k ∈ (aggregate_summaries db aid).severity_distribution.map Prod.fst
          ↔ (k ∈ ["critical", "high", "medium", "low", "info"]
              ∨ ∃ r ∈ db, r.analysis_id = aid ∧ r.severity = k) := by
  refine ⟨?_, ?_, ?_⟩
  · rcases keys_foldl_distStep (get_all_summaries db aid)
        [("critical", 0), ("high", 0), ("medium", 0), ("low", 0), ("info", 0)] with ⟨ext, hext⟩
    exact ⟨ext, by
      show (get_severity_distribution (get_all_summaries db aid)).map Prod.fst = _
      rw [get_severity_distribution_eq_foldl, hext]
      rfl⟩
  · show sumVals (get_severity_distribution (get_all_summaries db aid))
        = (get_all_summaries db aid).length
    rw [get_severity_distribution_eq_foldl, sumVals_foldl_distStep]
    simp [sumVals]
  · intro k
    show k ∈ (get_severity_distribution (get_all_summaries db aid)).map Prod.fst ↔ _
    rw [get_severity_distribution_eq_foldl, mem_keys_foldl_distStep]
    have hrows : (∃ r ∈ get_all_summaries db aid, r.severity = k)
        ↔ ∃ r ∈ db, r.analysis_id = aid ∧ r.severity = k := by
      constructor
      · rintro ⟨r, hr, hk⟩
        have := (get_all_summaries_perm db aid).mem_iff.mp hr
        rw [List.mem_filter] at this
        exact ⟨r, this.1, by simpa using this.2, hk⟩
      · rintro ⟨r, hr, haid, hk⟩
        refine ⟨r, (get_all_summaries_perm db aid).mem_iff.mpr ?_, hk⟩
        rw [List.mem_filter]
        exact ⟨hr, by simpa using haid⟩
    rw [hrows]
    simp

/-- First summary dict stored for ordinal 0. -/
def sdA : SummaryDict :=
  ⟨0, some "first", some [], some [], some [], some [], some "low", (0, 1),
    some (none, none)⟩

/-- Second summary dict stored for the same ordinal 0. -/
def sdB : SummaryDict :=
  ⟨0, some "second", some [], some [], some [], some [], some "high", (0, 1),
    some (none, none)⟩

/-- Counterexample to claim C3 as stated: storing two summaries for the
same (analysis id, ordinal) key leaves TWO stored rows for that key,
not one — `store_chunk_summary` is a plain INSERT into an
autoincrement table with no uniqueness constraint on
(analysis_id, chunk_id). -/
theorem store_twice_leaves_two_rows :
    ((store_chunk_summary [] 1 sdA).bind fun db => store_chunk_summary db 1 sdB)
      = .ok [rowOf 1 sdA (none, none), rowOf 1 sdB (none, none)]
    ∧ (keyRows [rowOf 1 sdA (none, none), rowOf 1 sdB (none, none)] 1 0).length = 2
    ∧ (keyRows [rowOf 1 sdA (none, none), rowOf 1 sdB (none, none)] 1 0).length ≠ 1 := by
  refine ⟨rfl, by decide, by decide⟩

/-- Claim C3 (amended): storing a summary for an (analysis id, ordinal)
key and then storing a second summary for the same key leaves exactly
TWO stored rows for that key, in store order — the first holding the
first value and the second the second value (insert semantics, not
replace). -/
theorem store_twice_same_key_appends_both :
    ∀ (db : List SummaryRow) (aid : Nat) (s1 s2 : SummaryDict)
      (t1 t2 : Option Int × Option Int),
      s1.timestamp_range = some t1 → s2.timestamp_range = some t2 →
      s2.chunk_id = s1.chunk_id →
      store_chunk_summary db aid s1 = .ok (db ++ [rowOf aid s1 t1])
      ∧ store_chunk_summary (db ++ [rowOf aid s1 t1]) aid s2
          = .ok (db ++ [rowOf aid s1 t1] ++ [rowOf aid s2 t2])
      ∧ keyRows (db ++ [rowOf aid s1 t1] ++ [rowOf aid s2 t2]) aid s1.chunk_id
          = keyRows db aid s1.chunk_id ++ [rowOf aid s1 t1, rowOf aid s2 t2]
      ∧ (keyRows (db ++ [rowOf aid s1 t1] ++ [rowOf aid s2 t2]) aid s1.chunk_id).length
          = (keyRows db aid s1.chunk_id).length + 2 := by
  intro db aid s1 s2 t1 t2 h1 h2 hk
  have key3 : keyRows (db ++ [rowOf aid s1 t1] ++ [rowOf aid s2 t2]) aid s1.chunk_id
      = keyRows db aid s1.chunk_id ++ [rowOf aid s1 t1, rowOf aid s2 t2] := by
    simp [keyRows, List.filter_append, rowOf, hk]
  refine ⟨by simp [store_chunk_summary, h1], by simp [store_chunk_summary, h2], key3, ?_⟩
  rw [key3]
  simp

/-- Witness for `store_twice_same_key_appends_both` at the concrete
dicts `sdA`, `sdB` (both ordinal 0, analysis 1). -/
theorem store_twice_same_key_appends_both_witness :
    store_chunk_summary [] 1 sdA = .ok ([] ++ [rowOf 1 sdA (none, none)])
    ∧ store_chunk_summary ([] ++ [rowOf 1 sdA (none, none)]) 1 sdB
        = .ok ([] ++ [rowOf 1 sdA (none, none)] ++ [rowOf 1 sdB (none, none)])
    ∧ keyRows ([] ++ [rowOf 1 sdA (none, none)] ++ [rowOf 1 sdB (none, none)]) 1 sdA.chunk_id
        = keyRows [] 1 sdA.chunk_id ++ [rowOf 1 sdA (none, none), rowOf 1 sdB (none, none)]
    ∧ (keyRows ([] ++ [rowOf 1 sdA (none, none)] ++ [rowOf 1 sdB (none, none)]) 1 sdA.chunk_id).length
        = (keyRows [] 1 sdA.chunk_id).length + 2 :=
  store_twice_same_key_appends_both [] 1 sdA sdB (none, none) (none, none) rfl rfl rfl

/-- Claim C10: a summary dict lacking a `severity` key is persisted
with severity `info` (the `.get('severity', 'info')` default), so such
a segment is counted in the `info` bucket of the severity
distribution, not in `unknown`. -/
theorem store_missing_severity_persists_info :
    ∀ (db : List SummaryRow) (aid : Nat) (s : SummaryDict)
      (tsr : Option Int × Option Int),
      s.timestamp_range = some tsr → s.severity = none →
      store_chunk_summary db aid s = .ok (db ++ [rowOf aid s tsr])
      ∧ (rowOf aid s tsr).severity = "info"
      ∧ ∀ rows : List SummaryRow,
          dictGet (get_severity_distribution (rows ++ [rowOf aid s tsr])) "info"
            = dictGet (get_severity_distribution rows) "info" + 1 := by
  intro db aid s tsr ht hs
  refine ⟨by simp [store_chunk_summary, ht], by simp [rowOf, hs], ?_⟩
  intro rows
  rw [get_severity_distribution_eq_foldl, get_severity_distribution_eq_foldl,
    dictGet_foldl_distStep, dictGet_foldl_distStep, List.countP_append]
  simp [List.countP_cons, rowOf, hs]
  omega

/-- A summary dict with no `severity` key (all other keys present). -/
def sdNoSev : SummaryDict :=
  ⟨0, some "s", some [], some [], some [], some [], none, (0, 1), some (none, none)⟩

/-- Witness for `store_missing_severity_persists_info` at `sdNoSev`. -/
theorem store_missing_severity_persists_info_witness :
    store_chunk_summary [] 1 sdNoSev = .ok ([] ++ [rowOf 1 sdNoSev (none, none)])
    ∧ (rowOf 1 sdNoSev (none, none)).severity = "info"
    ∧ dictGet (get_severity_distribution ([] ++ [rowOf 1 sdNoSev (none, none)])) "info"
        = dictGet (get_severity_distribution []) "info" + 1 := by
  have h := store_missing_severity_persists_info [] 1 sdNoSev (none, none) rfl rfl
  exact ⟨h.1, h.2.1, h.2.2 []⟩

/-! ## Claim theorems: severity query -/

/-- Severity rank in the SPEC's ordered domain
`critical > high > medium > low > info > unknown` — a second definition
following the spec's words, used only to exhibit that the code's
ordering diverges from it. -/
def specSeverityRank (s : String) : Nat :=
  if s == "critical" then 5
  else if s == "high" then 4
  else if s == "medium" then 3
  else if s == "low" then 2
  else if s == "info" then 1
  else 0

/-- A stored row with severity `critical`, ordinal 0. -/
def rowCrit : SummaryRow := ⟨1, 0, "c", [], [], [], [], "critical", 0, 1, none, none⟩

/-- A stored row with severity `medium`, ordinal 1. -/
def rowMed : SummaryRow := ⟨1, 1, "m", [], [], [], [], "medium", 1, 2, none, none⟩

/-- Counterexample to claim C7 as stated: querying severities at least
`medium` over a `critical` row and a `medium` row returns the `medium`
row FIRST — SQL `ORDER BY severity DESC` sorts the raw severity TEXT
(`"medium" > "critical"` lexicographically), not the severity domain,
in which `medium` ranks strictly below `critical`. -/
theorem severity_query_not_domain_ordered :
    (get_summaries_by_severity [rowCrit, rowMed] 1 "medium").map SummaryRow.severity
        = ["medium", "critical"]
    ∧ specSeverityRank "medium" < specSeverityRank "critical" := by
  refine ⟨by decide, by decide⟩

/-- Claim C7 (amended): the severity query returns exactly the stored
rows of the analysis whose mapped severity level (`critical` 4, `high`
3, `medium` 2, `low` 1, `info` 0, anything else — including `unknown` —
0) is at least the threshold's level (an unrecognized threshold maps to
2), ordered by severity as a raw string descending (byte-lexicographic)
and then by ordinal ascending — NOT by the spec's severity domain. -/
theorem severity_query_filter_and_string_order (db : List SummaryRow) (aid : Nat)
    (min_severity : String) :
    List.Pairwise rowLeBySeverity (get_summaries_by_severity db aid min_severity)
    ∧ (get_summaries_by_severity db aid min_severity).Perm
        (db.filter fun r =>
          decide (minLevelOf min_severity ≤ severityLevel r.severity)
            && (r.analysis_id == aid)) := by
  constructor
  · exact List.Pairwise.sublist (List.filter_sublist _)
      (List.sorted_insertionSort rowLeBySeverity
        (db.filter fun r => r.analysis_id == aid))
  · have hperm : (get_summaries_by_severity db aid min_severity).Perm
        ((db.filter fun r => r.analysis_id == aid).filter
          (fun r => decide (minLevelOf min_severity ≤ severityLevel r.severity))) :=
      (List.perm_insertionSort rowLeBySeverity
        (db.filter fun r => r.analysis_id == aid)).filter _
    rw [List.filter_filter] at hperm
    exact hperm

/-! ## Claim theorems: segment summarizer -/

/-- Claim C8: the Segment Summarizer is total (exactly one Segment
Summary per segment, no exception past its boundary — every provider or
parse failure is caught inside `summarize_chunk`'s `try`), and on any
failure it returns a summary carrying severity `unknown`, an
explanatory synopsis naming the error, and empty
errors/api-calls/performance-issues/key-patterns lists; on every
outcome the returned summary is stamped with the segment's ordinal and
line range. -/
theorem summarize_chunk_total_and_degrades (chunk : Chunk) (e : String) :
    (summarize_chunk chunk (.failure e)).severity = some "unknown"
    ∧ (summarize_chunk chunk (.failure e)).summary
        = some ("Error summarizing chunk: " ++ e)
    ∧ (summarize_chunk chunk (.failure e)).errors_found = some []
    ∧ (summarize_chunk chunk (.failure e)).api_calls = some []
    ∧ (summarize_chunk chunk (.failure e)).performance_issues = some []
    ∧ (summarize_chunk chunk (.failure e)).key_patterns = some []
    ∧ ∀ outcome : ProviderOutcome,
        (summarize_chunk chunk outcome).chunk_id = chunk.chunk_id
        ∧ (summarize_chunk chunk outcome).line_range
            = (chunk.start_line, chunk.end_line) := by
  refine ⟨rfl, rfl, rfl, rfl, rfl, rfl, ?_⟩
  intro outcome
  cases outcome <;> exact ⟨rfl, rfl⟩

/-! ## Claim theorems: chunking pipeline degradation (C1) -/

/-- A summarizer whose provider call fails on every segment. -/
def failSummarize : Chunk → SummaryDict :=
  fun c => summarize_chunk c (.failure "provider down")

/-- A 3-line file that chunks into 3 segments at target size 2. -/
def lines3 : List String := ["aa\n", "bb\n", "cc\n"]

/-- Claim C1 is violated by the code (code bug): when the provider
fails on every segment of a 3-segment file, each fallback summary dict
lacks the `timestamp_range` key, so `store_chunk_summary` raises
`KeyError` on all three, the per-chunk handler drops them, and
aggregation returns `total_chunks = 0` with an empty database and no
`unknown` entries — instead of the claimed `total_chunks = 3` with all
three segments in the `unknown` bucket. (No exception escapes the
pipeline, but the degraded segments are silently omitted.) -/
theorem failed_segments_are_dropped_not_recorded :
    (stream_chunks tr0 2 lines3).length = 3
    ∧ (process_with_chunking 1 failSummarize [] (stream_chunks tr0 2 lines3)).1 = []
    ∧ (process_with_chunking 1 failSummarize [] (stream_chunks tr0 2 lines3)).2.total_chunks = 0
    ∧ dictGet ((process_with_chunking 1 failSummarize []
        (stream_chunks tr0 2 lines3)).2.severity_distribution) "unknown" = 0
    ∧ (∀ c, (failSummarize c).severity = some "unknown"
        ∧ (failSummarize c).timestamp_range = none) := by
  refine ⟨by decide, by decide, by decide, by decide, ?_⟩
  intro c
  exact ⟨rfl, rfl⟩

/-! ## Claim theorems: orchestrator -/

/-- An invocation environment in which the analysis and its file exist
but the user has no API keys configured: `get_user_api_key` raises
`HTTPException` AFTER the status was set to `analyzing`. -/
def envNoKey : AnalyzeEnv :=
  { analysis_found := true
    file_exists := true
    file_size := 50
    api_key := .error "No API keys configured. Please add your API keys in Settings."
    chunking := .ok ()
    single_pass := .returned true }

/-- Counterexample to claim C2 as stated: when `get_user_api_key`
raises `HTTPException` (no API keys configured), the invocation has
already set the status to `analyzing`, and the outer
`except HTTPException: raise` re-raises WITHOUT resetting it — the
analysis is left in `analyzing`, which is neither `completed` nor
`failed`. -/
theorem analyze_logs_stuck_in_analyzing :
    (analyze_logs envNoKey "uploaded").status = "analyzing"
    ∧ (analyze_logs envNoKey "uploaded").status ≠ "completed"
    ∧ (analyze_logs envNoKey "uploaded").status ≠ "failed"
    ∧ (analyze_logs envNoKey "uploaded").outcome
        = .httpError "No API keys configured. Please add your API keys in Settings." := by
  refine ⟨rfl, by decide, by decide, rfl⟩

/-- Claim C2 (amended): for every invocation that reaches the
`analyzing` status update, if the API-key lookup succeeds then the
final status is `completed` or `failed` — every later exception on
either processing path sets `failed` before the error is surfaced; but
if the API-key lookup raises `HTTPException`, the final status remains
`analyzing` (the `except HTTPException` handler re-raises without a
status update). -/
theorem analyze_logs_status_resolution (env : AnalyzeEnv) (status0 : String) :
    env.analysis_found = true → env.file_exists = true →
    ((∃ k, env.api_key = .ok k) →
      (analyze_logs env status0).status = "completed"
      ∨ (analyze_logs env status0).status = "failed")
    ∧ (∀ e, env.api_key = .error e →
        (analyze_logs env status0).status = "analyzing") := by
  intro hfound hfile
  constructor
  · rintro ⟨k, hk⟩
    unfold analyze_logs
    rw [hfound, hfile, hk]
    simp only [Bool.true_eq_false, if_false]
    by_cases hsz : CHUNK_THRESHOLD ≤ env.file_size
    · cases env.chunking <;> simp [hsz]
    · cases env.single_pass with
      | returned b => cases b <;> simp [hsz]
      | exn e => simp [hsz]
  · intro e he
    unfold analyze_logs
    rw [hfound, hfile, he]
    simp

/-- A no-keys-free environment: analysis and file exist, key lookup
succeeds, the chunking path would succeed, the single-pass analyzer
would raise. -/
def envOkKey : AnalyzeEnv :=
  { analysis_found := true
    file_exists := true
    file_size := 50
    api_key := .ok "sk-test"
    chunking := .ok ()
    single_pass := .exn "boom" }

/-- Witness for `analyze_logs_status_resolution`: with a configured API
key and a failing single-pass analyzer, the invocation ends in
`completed` or `failed` (here: `failed`), and with `envNoKey`'s failing
key lookup it ends in `analyzing`. -/
theorem analyze_logs_status_resolution_witness :
    ((analyze_logs envOkKey "uploaded").status = "completed"
      ∨ (analyze_logs envOkKey "uploaded").status = "failed")
    ∧ (analyze_logs envNoKey "uploaded").status = "analyzing" := by
  constructor
  · exact (analyze_logs_status_resolution envOkKey "uploaded" rfl rfl).1 ⟨"sk-test", rfl⟩
  · exact (analyze_logs_status_resolution envNoKey "uploaded" rfl rfl).2
      "No API keys configured. Please add your API keys in Settings." rfl

/-- Claim C9: once an invocation reaches the routing decision (analysis
and file exist, API key found), the chunking path is selected if and
only if the file's byte size is at least `CHUNK_THRESHOLD = 100000`,
and the single-pass path if and only if it is below — so a file of
exactly 100000 bytes goes to chunking and one of 99999 bytes goes to
single-pass. -/
theorem analyze_logs_routing_threshold (env : AnalyzeEnv) (status0 k : String) :
    env.analysis_found = true → env.file_exists = true → env.api_key = .ok k →
    ((analyze_logs env status0).route = some "chunking" ↔ 100000 ≤ env.file_size)
    ∧ ((analyze_logs env status0).route = some "single-pass" ↔ env.file_size < 100000)
    ∧ (env.file_size = 100000 → (analyze_logs env status0).route = some "chunking")
    ∧ (env.file_size = 99999 → (analyze_logs env status0).route = some "single-pass") := by
  intro hfound hfile hk
  have hroute : (analyze_logs env status0).route
      = some (if CHUNK_THRESHOLD ≤ env.file_size then "chunking" else "single-pass") := by
    unfold analyze_logs
    rw [hfound, hfile, hk]
    simp only [Bool.true_eq_false, if_false]
    by_cases hsz : CHUNK_THRESHOLD ≤ env.file_size
    · cases env.chunking <;> simp [hsz]
    · cases env.single_pass with
      | returned b => cases b <;> simp [hsz]
      | exn e => simp [hsz]
  rw [hroute]
  by_cases hsz : CHUNK_THRESHOLD ≤ env.file_size
  · refine ⟨by simp [hsz, CHUNK_THRESHOLD] at hsz ⊢, ?_, ?_, ?_⟩
    · simp only [if_pos hsz]
      constructor
      · intro h
        exact absurd h (by decide)
      · intro h
        exact absurd hsz (by simp [CHUNK_THRESHOLD]; omega)
    · intro _
      simp [hsz]
    · intro h
      rw [h] at hsz
      exact absurd hsz (by decide)
  · refine ⟨?_, ?_, ?_, ?_⟩
    · simp only [if_neg hsz]
      constructor
      · intro h
        exact absurd h (by decide)
      · intro h
        exact absurd h (by simpa [CHUNK_THRESHOLD] using hsz)
    · simp only [if_neg hsz]
      simp [CHUNK_THRESHOLD] at hsz
      simp
      omega
    · intro h
      rw [h] at hsz
      exact absurd (by decide : CHUNK_THRESHOLD ≤ 100000) hsz
    · intro _
      simp [hsz]

/-- The routing environment at exactly the threshold (100000 bytes). -/
def envAtThreshold : AnalyzeEnv :=
  { analysis_found := true
    file_exists := true
    file_size := 100000
    api_key := .ok "sk-test"
    chunking := .ok ()
    single_pass := .returned true }

/-- The routing environment one byte below the threshold. -/
def envBelowThreshold : AnalyzeEnv :=
  { analysis_found := true
    file_exists := true
    file_size := 99999
    api_key := .ok "sk-test"
    chunking := .ok ()
    single_pass := .returned true }

/-- Witness for `analyze_logs_routing_threshold`: a 100000-byte file is
routed to the chunking path, a 99999-byte file to the single-pass
path. -/
theorem analyze_logs_routing_threshold_witness :
    (analyze_logs envAtThreshold "uploaded").route = some "chunking"
    ∧ (analyze_logs envBelowThreshold "uploaded").route = some "single-pass" := by
  constructor
  · exact (analyze_logs_routing_threshold envAtThreshold "uploaded" "sk-test"
      rfl rfl rfl).2.2.1 rfl
  · exact (analyze_logs_routing_threshold envBelowThreshold "uploaded" "sk-test"
      rfl rfl rfl).2.2.2 rfl

end ChaturLog
